import Mathlib

/-!
Verification development for the atomic-web-scraper repository.

Numeric fields that the Python source stores as `float` are modelled as `ℚ`;
`int` fields as `Int`/`Nat`.  Fallible constructors are modelled with `Except`.
The compliance engine (robots parsing, rate limiting, crawling, privacy
checking) is re-exported by `src/compliance/__init__.py` but its module
sources are not present under `src/`; those components are modelled from the
specification text, as marked on each definition.
-/

namespace AtomicScraper

/-! ## Models present in `src/models` -/

/-- Embeds `ScrapingStrategy` from `src/models/base_models.py`:
the fields carrying validated bounds (`max_pages ≥ 1`, `request_delay ≥ 0.1`)
together with the required descriptive fields. -/
structure ScrapingStrategy where
  scrape_type : String
  target_selectors : List String
  max_pages : Int
  request_delay : ℚ

/-- Pydantic construction of `ScrapingStrategy`: field bounds
(`max_pages: ge=1`, `request_delay: ge=0.1`) are checked at construction
time and a validation error is raised to the caller when violated
(`src/models/base_models.py` lines 13-22). -/
def ScrapingStrategy.construct (scrape_type : String) (target_selectors : List String)
    (max_pages : Int) (request_delay : ℚ) : Except String ScrapingStrategy :=
  if max_pages < 1 then
    Except.error "max_pages must be greater than or equal to 1"
  else if request_delay < (1 : ℚ) / 10 then
    Except.error "request_delay must be greater than or equal to 0.1"
  else
    Except.ok ⟨scrape_type, target_selectors, max_pages, request_delay⟩

/-- Embeds `ScrapingResult` from `src/models/base_models.py`:
only the counters that `success_rate` reads. -/
structure ScrapingResult where
  total_items_found : Nat
  total_items_scraped : Nat

/-- Embeds the `success_rate` property of `ScrapingResult`
(`src/models/base_models.py` lines 49-54). -/
def ScrapingResult.success_rate (r : ScrapingResult) : ℚ :=
  if r.total_items_found = 0 then 0
  else ((r.total_items_scraped : ℚ) / (r.total_items_found : ℚ)) * 100

/-- Embeds `ContentQualityMetrics` from `src/models/extraction_models.py`. -/
structure ContentQualityMetrics where
  completeness_score : ℚ
  accuracy_score : ℚ
  consistency_score : ℚ
  relevance_score : ℚ

/-- Lookup in a weights mapping with a default, embedding Python's
`weights.get(key, 0.25)` over a keyed association list. -/
def weightsGet (weights : List (String × ℚ)) (key : String) : ℚ :=
  match weights.find? (fun p => p.1 == key) with
  | some p => p.2
  | none => (1 : ℚ) / 4

/-- Embeds `ContentQualityMetrics.calculate_overall_score`
(`src/models/extraction_models.py` lines 78-85): weighted sum of the four
component scores, each weight defaulting to 0.25, clamped into [0, 100]. -/
def ContentQualityMetrics.calculate_overall_score
    (m : ContentQualityMetrics) (weights : List (String × ℚ)) : ℚ :=
  let score : ℚ :=
    m.completeness_score * weightsGet weights "completeness"
    + m.accuracy_score * weightsGet weights "accuracy"
    + m.consistency_score * weightsGet weights "consistency"
    + m.relevance_score * weightsGet weights "relevance"
  min 100 (max 0 score)

/-! ## Robots parsing and evaluation

The module `robots_parser` is re-exported by `src/compliance/__init__.py`
but its source is not under `src/`; the definitions below are modelled from
the specification (§3, §4.1). -/

/-- Modelled from the spec: the directive of a `RobotsRule` (§3); the module
`robots_parser` is missing from `src/`. -/
inductive Directive where
  | allow
  | disallow
deriving DecidableEq, Repr

/-- Modelled from the spec: `RobotsRule` (§3); the module `robots_parser` is
missing from `src/`. -/
structure RobotsRule where
  user_agent_pattern : String
  path_pattern : String
  directive : Directive
deriving DecidableEq, Repr

/-- Modelled from the spec: one user-agent group of a `RobotsPolicy` (§3,
§4.1) with its accumulated rules and optional crawl delay. -/
structure RuleGroup where
  user_agent_pattern : String
  rules : List RobotsRule
  crawl_delay : Option ℚ
deriving DecidableEq, Repr

/-- Modelled from the spec: `RobotsPolicy` (§3), restricted to the fields the
permission decision reads (the store-owned fields `host`, `sitemaps`,
`fetched_at`, `ttl` belong to `RobotsPolicyStore`). -/
structure RobotsPolicy where
  rule_groups : List RuleGroup
deriving DecidableEq, Repr

/-- A rule matches a requested path when its path pattern is a prefix of the
path (§4.1). -/
def ruleMatches (path : String) (r : RobotsRule) : Bool :=
  r.path_pattern.data.isPrefixOf path.data

/-- Modelled from the spec (§4.1): among the matching rules, keep the length
and directive of the winner — longer pattern wins, and at equal length a
Disallow beats an Allow (conservative default). -/
def selectRule (path : String) : List RobotsRule → Option (Nat × Directive)
  | [] => none
  | r :: rs =>
    let rest := selectRule path rs
    if ruleMatches path r then
      match rest with
      | none => some (r.path_pattern.length, r.directive)
      | some (len, d) =>
        if len < r.path_pattern.length then
          some (r.path_pattern.length, r.directive)
        else if r.path_pattern.length = len then
          some (len, if r.directive = Directive.disallow then Directive.disallow else d)
        else some (len, d)
    else rest

/-- Case-insensitive equality of two strings, character by character. -/
def lowerEq (a b : String) : Bool :=
  a.data.map Char.toLower == b.data.map Char.toLower

/-- Group whose user-agent pattern matches the caller's user agent exactly,
case-insensitively (§4.1). -/
def uaMatchGroup (policy : RobotsPolicy) (ua : String) : Option RuleGroup :=
  policy.rule_groups.find? (fun g => lowerEq g.user_agent_pattern ua)

/-- The wildcard group `*` (§4.1). -/
def wildcardGroup (policy : RobotsPolicy) : Option RuleGroup :=
  policy.rule_groups.find? (fun g => g.user_agent_pattern == "*")

/-- Modelled from the spec (§4.1): an exact case-insensitive user-agent match
takes priority over the wildcard group. -/
def selectedGroup (policy : RobotsPolicy) (ua : String) : Option RuleGroup :=
  match uaMatchGroup policy ua with
  | some g => some g
  | none => wildcardGroup policy

/-- Rules of the selected group; no group selected means no rules. -/
def selectedRules (policy : RobotsPolicy) (ua : String) : List RobotsRule :=
  match selectedGroup policy ua with
  | some g => g.rules
  | none => []

/-- Crawl delay declared by the selected group, when any (§4.1). -/
def crawlDelayOf (policy : RobotsPolicy) (ua : String) : Option ℚ :=
  match selectedGroup policy ua with
  | some g => g.crawl_delay
  | none => none

/-- Modelled from the spec: `is_allowed(policy, path, user_agent)` (§4.1);
the module `robots_parser` is missing from `src/`.  No selected rule matches
means default allow. -/
def is_allowed (policy : RobotsPolicy) (path : String) (ua : String) : Bool :=
  match selectRule path (selectedRules policy ua) with
  | none => true
  | some (_, Directive.allow) => true
  | some (_, Directive.disallow) => false

/-- Matching rules of a rule list for a requested path. -/
def matchingRules (path : String) (rules : List RobotsRule) : List RobotsRule :=
  rules.filter (ruleMatches path)

/-- Length of the longest matching path pattern (0 when nothing matches). -/
def maxMatchLen (path : String) (rules : List RobotsRule) : Nat :=
  ((matchingRules path rules).map (fun r => r.path_pattern.length)).foldr max 0

/-- Whether some matching Disallow rule has a path pattern of length `n`. -/
def disallowAt (path : String) (rules : List RobotsRule) (n : Nat) : Bool :=
  (matchingRules path rules).any
    (fun r => decide (r.path_pattern.length = n ∧ r.directive = Directive.disallow))

/-- Tokens recognised on a robots.txt line (§4.1); anything else is
malformed/unrecognised and is skipped. -/
inductive LineTok where
  | uaTok (ua : String)
  | ruleTok (d : Directive) (path : String)
  | delayTok (q : ℚ)
deriving DecidableEq, Repr

/-- Split a character list at every occurrence of a separator character. -/
def splitChar (c : Char) : List Char → List (List Char)
  | [] => [[]]
  | x :: xs =>
    match splitChar c xs with
    | [] => [[]]
    | y :: ys => if x = c then [] :: y :: ys else (x :: y) :: ys

/-- Strip leading and trailing whitespace from a character list. -/
def trimChars (l : List Char) : List Char :=
  ((l.dropWhile Char.isWhitespace).reverse.dropWhile Char.isWhitespace).reverse

/-- Read a non-empty run of decimal digits as a natural number. -/
def digitsToNat? : List Char → Option Nat
  | [] => none
  | l =>
    l.foldl
      (fun acc c =>
        match acc with
        | none => none
        | some n => if c.isDigit then some (n * 10 + (c.toNat - 48)) else none)
      (some 0)

/-- Drop everything from the first `#` on (robots.txt comment). -/
def stripComment (line : List Char) : List Char :=
  match splitChar '#' line with
  | [] => []
  | s :: _ => s

/-- Split a robots.txt line into a lower-cased key and a trimmed value at the
first colon; a line without a colon is unrecognised. -/
def splitField (line : List Char) : Option (List Char × List Char) :=
  match splitChar ':' line with
  | [] => none
  | [_] => none
  | k :: rest =>
    some (trimChars (k.map Char.toLower), trimChars (List.intercalate [':'] rest))

/-- Parse a non-negative decimal literal such as `3` or `2.5` into ℚ. -/
def parseDecimal (s : List Char) : Option ℚ :=
  match splitChar '.' s with
  | [w] => (digitsToNat? w).map (fun n => (n : ℚ))
  | [w, f] =>
    match digitsToNat? w, digitsToNat? f with
    | some wn, some fn => some ((wn : ℚ) + (fn : ℚ) / ((10 : ℚ) ^ f.length))
    | _, _ => none
  | _ => none

/-- Modelled from the spec (§4.1): recognise one robots.txt line; `none`
means the line is malformed or unrecognised and contributes nothing. -/
def parseLine (line : String) : Option LineTok :=
  match splitField (stripComment line.data) with
  | none => none
  | some (key, val) =>
    if key = "user-agent".data then some (LineTok.uaTok (String.mk val))
    else if key = "allow".data then some (LineTok.ruleTok Directive.allow (String.mk val))
    else if key = "disallow".data then some (LineTok.ruleTok Directive.disallow (String.mk val))
    else if key = "crawl-delay".data then (parseDecimal val).map LineTok.delayTok
    else none

/-- Parser state: completed groups in order, plus the group currently being
accumulated (a group begins at a `User-agent:` line, §4.1). -/
structure ParseState where
  groups : List RuleGroup
  current : Option RuleGroup
deriving DecidableEq, Repr

/-- Close the group being accumulated, if any. -/
def closeGroup (s : ParseState) : List RuleGroup :=
  match s.current with
  | none => s.groups
  | some g => s.groups ++ [g]

/-- Apply one recognised token to the parser state; rule and delay lines
before any `User-agent:` line have no group to extend and are skipped. -/
def applyTok (s : ParseState) : LineTok → ParseState
  | LineTok.uaTok ua => { groups := closeGroup s, current := some ⟨ua, [], none⟩ }
  | LineTok.ruleTok d p =>
    match s.current with
    | none => s
    | some g =>
      { s with current := some { g with rules := g.rules ++ [⟨g.user_agent_pattern, p, d⟩] } }
  | LineTok.delayTok q =>
    match s.current with
    | none => s
    | some g => { s with current := some { g with crawl_delay := some q } }

/-- Process one raw line: an unrecognised line leaves the state unchanged. -/
def stepLine (s : ParseState) (line : String) : ParseState :=
  match parseLine line with
  | none => s
  | some t => applyTok s t

/-- Fold the parser over the remaining lines. -/
def parseLinesAux (s : ParseState) : List String → ParseState
  | [] => s
  | l :: ls => parseLinesAux (stepLine s l) ls

/-- Modelled from the spec: `RobotsParser.parse(raw_text, default_user_agent)
-> RobotsPolicy` (§4.1); the module `robots_parser` is missing from `src/`.
The default user agent plays no role in parsing itself (it is used when
evaluating the policy). -/
def RobotsParser.parse (raw_text : String) (_default_user_agent : String) : RobotsPolicy :=
  ⟨closeGroup (parseLinesAux ⟨[], none⟩ ((splitChar '\n' raw_text.data).map String.mk))⟩

/-! ## Rate limiting

The module `rate_limiter` is re-exported by `src/compliance/__init__.py` but
its source is not under `src/`; the definitions below are modelled from the
specification (§3, §4.3, §5). -/

/-- Modelled from the spec: outcome classification reported to the limiter by
`release` (§4.3); the module `rate_limiter` is missing from `src/`. -/
inductive FetchOutcomeClass where
  | success
  | rateLimited
  | failed
deriving DecidableEq, Repr

/-- Modelled from the spec: the limiter's configuration surface (§4.3, §6);
the module `rate_limiter` is missing from `src/`.  `decay_factor` realises
the geometric decay of `current_delay` toward the base delay on success. -/
structure RateLimitConfig where
  min_delay : ℚ
  max_concurrent_per_host : Nat
  backoff_multiplier : ℚ
  max_backoff : ℚ
  decay_factor : ℚ
deriving DecidableEq, Repr

/-- Modelled from the spec: `HostRateState` (§3); the module `rate_limiter`
is missing from `src/`.  `last_request_at` is `none` before the first grant. -/
structure HostRateState where
  last_request_at : Option ℚ
  current_delay : ℚ
  consecutive_failures : Nat
  in_flight_count : Nat
deriving DecidableEq, Repr

/-- Fresh per-host state, created lazily on first access (§3). -/
def initialHostState (base : ℚ) : HostRateState :=
  { last_request_at := none, current_delay := base,
    consecutive_failures := 0, in_flight_count := 0 }

/-- Effective base delay for a host: the configured minimum, raised to the
robots crawl delay when one is known (§4.3). -/
def effectiveBaseDelay (cfg : RateLimitConfig) : Option ℚ → ℚ
  | none => cfg.min_delay
  | some d => max cfg.min_delay d

/-- Modelled from the spec: `RateLimiter.release` (§4.3); the module
`rate_limiter` is missing from `src/`.  Decrements `in_flight_count`; on
`Error`/`RateLimited` multiplies `current_delay` by the backoff multiplier
capped at `max_backoff` and increments `consecutive_failures`; on `Success`
resets the failure count and decays `current_delay` geometrically toward the
base delay. -/
def RateLimiter.release (cfg : RateLimitConfig) (base : ℚ) (s : HostRateState)
    (outcome : FetchOutcomeClass) : HostRateState :=
  match outcome with
  | FetchOutcomeClass.success =>
    { s with in_flight_count := s.in_flight_count - 1,
             consecutive_failures := 0,
             current_delay := base + (s.current_delay - base) * cfg.decay_factor }
  | FetchOutcomeClass.rateLimited | FetchOutcomeClass.failed =>
    { s with in_flight_count := s.in_flight_count - 1,
             consecutive_failures := s.consecutive_failures + 1,
             current_delay := min (s.current_delay * cfg.backoff_multiplier) cfg.max_backoff }

/-- Modelled from the spec: `RateLimiter.acquire` (§4.3); the module
`rate_limiter` is missing from `src/`.  The earliest permissible start is
`last_request_at + current_delay`; a grant within the wait budget records the
new `last_request_at` and takes a concurrency slot; `none` models
`timed_out`, which mutates nothing. -/
def RateLimiter.acquire (cfg : RateLimitConfig) (s : HostRateState)
    (now max_wait : ℚ) : Option (ℚ × HostRateState) :=
  if s.in_flight_count < cfg.max_concurrent_per_host then
    let earliest :=
      match s.last_request_at with
      | none => now
      | some l => max now (l + s.current_delay)
    if earliest ≤ now + max_wait then
      some (earliest, { s with last_request_at := some earliest,
                               in_flight_count := s.in_flight_count + 1 })
    else none
  else none

/-- One observable limiter action on a single host: a granted request start
at an absolute time, or an outcome report. -/
inductive LimiterEvent where
  | grant (t : ℚ)
  | rel (outcome : FetchOutcomeClass)
deriving DecidableEq, Repr

/-- Guard a grant must satisfy: the start time respects the earliest
permissible time `last_request_at + current_delay` (§4.3). -/
def grantOk (s : HostRateState) (t : ℚ) : Bool :=
  match s.last_request_at with
  | none => true
  | some l => decide (l + s.current_delay ≤ t)

/-- Modelled from the spec (§4.3, §5): small-step semantics of the per-host
limiter state under an arbitrary interleaving of callers.  Mutation of one
`HostRateState` is serialised, so an interleaving is a sequence of grant and
release events; a grant is only enabled within capacity and after the
earliest permissible time. -/
def limiterStep (cfg : RateLimitConfig) (base : ℚ) (s : HostRateState) :
    LimiterEvent → Option HostRateState
  | LimiterEvent.grant t =>
    if s.in_flight_count < cfg.max_concurrent_per_host ∧ grantOk s t = true then
      some { s with last_request_at := some t, in_flight_count := s.in_flight_count + 1 }
    else none
  | LimiterEvent.rel o => some (RateLimiter.release cfg base s o)

/-- Run a sequence of limiter events from a state; `none` when some event was
not enabled. -/
def runTrace (cfg : RateLimitConfig) (base : ℚ) (s : HostRateState) :
    List LimiterEvent → Option HostRateState
  | [] => some s
  | e :: es => (limiterStep cfg base s e).bind (fun s' => runTrace cfg base s' es)

/-- The granted request-start timestamps of a trace, in order. -/
def grantTimes : List LimiterEvent → List ℚ
  | [] => []
  | LimiterEvent.grant t :: es => t :: grantTimes es
  | LimiterEvent.rel _ :: es => grantTimes es

/-- The pending timestamp a chain of grants must respect: the last granted
start, as a list to prepend. -/
def lastList : Option ℚ → List ℚ
  | none => []
  | some l => [l]

/-! ## Respectful crawler

`RespectfulCrawler` is re-exported by `src/compliance/__init__.py` but its
source is not under `src/`; modelled from the specification (§4.4). -/

/-- A URL resolved into its host and path. -/
structure Url where
  host : String
  path : String
deriving DecidableEq, Repr

/-- Status of a `FetchOutcome` (§3). -/
inductive FetchStatus where
  | success
  | networkError
  | policyDenied
  | rateLimitTimeout
deriving DecidableEq, Repr

/-- Response of the injected network fetch; `none` at the call site models a
transport failure. -/
structure NetResponse where
  http_status : Nat
deriving DecidableEq, Repr

/-- Crawler configuration (§4.4, §6). -/
structure CrawlerConfig where
  respect_robots : Bool
  user_agent : String
  rate_config : RateLimitConfig
deriving DecidableEq, Repr

/-- Result of one `fetch` call, together with the observable effects the
specification constrains: the limiter registry after the call, the URLs
passed to the injected network fetch, and the audit flag recording a robots
bypass. -/
structure FetchResult where
  status : FetchStatus
  limiter : List (String × HostRateState)
  network_calls : List Url
  robots_bypass_audited : Bool
deriving DecidableEq, Repr

/-- Classify the transport result: HTTP 429/503 are `RateLimited`, a 2xx is
`Success`, anything else an error outcome (§4.4 step 4). -/
def classifyResponse (r : NetResponse) : FetchOutcomeClass :=
  if r.http_status = 429 ∨ r.http_status = 503 then FetchOutcomeClass.rateLimited
  else if 200 ≤ r.http_status ∧ r.http_status < 300 then FetchOutcomeClass.success
  else FetchOutcomeClass.failed

/-- `FetchOutcome` status reported to the caller for a performed fetch. -/
def statusOf : FetchOutcomeClass → FetchStatus
  | FetchOutcomeClass.success => FetchStatus.success
  | FetchOutcomeClass.rateLimited => FetchStatus.networkError
  | FetchOutcomeClass.failed => FetchStatus.networkError

/-- Look up a host's rate state in the registry, creating it lazily (§3). -/
def lookupHost (registry : List (String × HostRateState)) (host : String)
    (base : ℚ) : HostRateState :=
  match registry.find? (fun p => p.1 == host) with
  | some p => p.2
  | none => initialHostState base

/-- Store a host's rate state back into the registry. -/
def updateHost (registry : List (String × HostRateState)) (host : String)
    (s : HostRateState) : List (String × HostRateState) :=
  (host, s) :: registry.filter (fun p => !(p.1 == host))

/-- Modelled from the spec: `RespectfulCrawler.fetch(url, user_agent,
max_wait) -> FetchOutcome` (§4.4); the module `rate_limiter` holding
`RespectfulCrawler` is missing from `src/`.  A disallowed URL under
`respect_robots` returns `PolicyDenied` immediately, touching neither the
limiter registry nor the injected network fetch; otherwise the call acquires
a slot, performs the fetch, classifies it and releases the slot. -/
def RespectfulCrawler.fetch (cfg : CrawlerConfig) (policy : RobotsPolicy)
    (registry : List (String × HostRateState)) (net : Url → Option NetResponse)
    (url : Url) (now max_wait : ℚ) : FetchResult :=
  if cfg.respect_robots = true ∧ is_allowed policy url.path cfg.user_agent = false then
    { status := FetchStatus.policyDenied, limiter := registry,
      network_calls := [], robots_bypass_audited := false }
  else
    let base := effectiveBaseDelay cfg.rate_config (crawlDelayOf policy cfg.user_agent)
    let s := lookupHost registry url.host base
    match RateLimiter.acquire cfg.rate_config s now max_wait with
    | none =>
      { status := FetchStatus.rateLimitTimeout, limiter := registry,
        network_calls := [], robots_bypass_audited := !cfg.respect_robots }
    | some (_, s1) =>
      match net url with
      | none =>
        { status := FetchStatus.networkError,
          limiter := updateHost registry url.host
            (RateLimiter.release cfg.rate_config base s1 FetchOutcomeClass.failed),
          network_calls := [url], robots_bypass_audited := !cfg.respect_robots }
      | some resp =>
        { status := statusOf (classifyResponse resp),
          limiter := updateHost registry url.host
            (RateLimiter.release cfg.rate_config base s1 (classifyResponse resp)),
          network_calls := [url], robots_bypass_audited := !cfg.respect_robots }

/-! ## Privacy compliance

The module `privacy_compliance` is re-exported by `src/compliance/__init__.py`
but its source is not under `src/`; modelled from the specification (§3,
§4.5). -/

/-- Modelled from the spec: `DataCategory` (§3); the module
`privacy_compliance` is missing from `src/`. -/
inductive DataCategory where
  | Public
  | Contact
  | Personal
  | Sensitive
  | Financial
deriving DecidableEq, Repr

/-- Modelled from the spec: `DataCollectionRule` (§3). -/
structure DataCollectionRule where
  category : DataCategory
  allowed : Bool
  requires_anonymization : Bool
deriving DecidableEq, Repr

/-- Expiry action of a retention policy (§3). -/
inductive ExpiryAction where
  | Purge
  | Anonymize
deriving DecidableEq, Repr

/-- Modelled from the spec: `RetentionPolicy` (§3); ages are in seconds. -/
structure RetentionPolicy where
  category : DataCategory
  max_age : ℚ
  expiry_action : ExpiryAction
deriving DecidableEq, Repr

/-- Configured anonymization strategy (§6). -/
inductive AnonymizationStrategy where
  | redact
  | hash
  | drop
deriving DecidableEq, Repr

/-- A collected field value subject to retention, carrying its category, its
collection time and whether it has already been anonymized. -/
structure CollectedItem where
  field_name : String
  value : String
  category : DataCategory
  collected_at : ℚ
  anonymized : Bool
deriving DecidableEq, Repr

/-- Deterministic string digest used by the `hash` anonymization strategy. -/
def hashValue (v : String) : String :=
  toString (v.data.foldl (fun h c => (h * 31 + c.toNat) % 1000000007) 7)

/-- Apply the configured anonymization strategy to a value (§4.5): redact,
hash, or drop. -/
def anonymizeValue (strategy : AnonymizationStrategy) (v : String) : String :=
  match strategy with
  | AnonymizationStrategy.redact => "[REDACTED]"
  | AnonymizationStrategy.hash => hashValue v
  | AnonymizationStrategy.drop => ""

/-- Retention policy configured for a category, when any. -/
def findRetentionPolicy (policies : List RetentionPolicy) (cat : DataCategory) :
    Option RetentionPolicy :=
  policies.find? (fun p => decide (p.category = cat))

/-- Modelled from the spec (§4.5): retention decision for one item at time
`now` — expired items are purged (`none`) or anonymized according to the
matching policy, everything else is kept unchanged. -/
def retentionStep (strategy : AnonymizationStrategy)
    (policies : List RetentionPolicy) (now : ℚ) (item : CollectedItem) :
    Option CollectedItem :=
  match findRetentionPolicy policies item.category with
  | none => some item
  | some p =>
    if p.max_age < now - item.collected_at then
      match p.expiry_action with
      | ExpiryAction.Purge => none
      | ExpiryAction.Anonymize =>
        if item.anonymized then some item
        else some { item with value := anonymizeValue strategy item.value,
                              anonymized := true }
    else some item

/-- Modelled from the spec: `enforce_retention(items, policies, now)` (§4.5);
the module `privacy_compliance` is missing from `src/`.  A pure function of
its arguments. -/
def enforce_retention (strategy : AnonymizationStrategy)
    (policies : List RetentionPolicy) (now : ℚ) (items : List CollectedItem) :
    List CollectedItem :=
  items.filterMap (retentionStep strategy policies now)

/-- An ordered classification predicate paired with the category it assigns
(§4.5, §9). -/
structure ClassificationRule where
  applies : String → String → Bool
  category : DataCategory

/-- Configuration of the privacy compliance checker (§4.5, §6). -/
structure PrivacyComplianceConfig where
  classification_rules : List ClassificationRule
  collection_rules : List DataCollectionRule
  retention_policies : List RetentionPolicy
  anonymization_strategy : AnonymizationStrategy
  deny_by_default : Bool

/-- Modelled from the spec: `PrivacyComplianceChecker` (§4.5); the module
`privacy_compliance` is missing from `src/`.  Besides its configuration the
checker carries incidental mutable state (audit log, counters) that the
classification must not depend on. -/
structure PrivacyComplianceChecker where
  config : PrivacyComplianceConfig
  audit_log : List String
  items_processed : Nat

/-- Modelled from the spec: `classify(field_name, sample_value) ->
DataCategory` (§4.5); first matching predicate wins, default `Public`. -/
def classify (checker : PrivacyComplianceChecker) (field_name value : String) :
    DataCategory :=
  match checker.config.classification_rules.find?
      (fun r => r.applies field_name value) with
  | some r => r.category
  | none => DataCategory.Public

end AtomicScraper

namespace AtomicScraper

/-- C9: `ScrapingResult.success_rate` never divides by zero and is total:
it returns exactly 0 when `total_items_found = 0`, and
`(total_items_scraped / total_items_found) * 100` otherwise. -/
theorem success_rate_total (r : ScrapingResult) :
    (r.total_items_found = 0 → r.success_rate = 0)
    ∧ (0 < r.total_items_found →
        r.success_rate = ((r.total_items_scraped : ℚ) / (r.total_items_found : ℚ)) * 100) := by
  constructor
  · intro h
    simp [ScrapingResult.success_rate, h]
  · intro h
    have hne : r.total_items_found ≠ 0 := Nat.pos_iff_ne_zero.mp h
    simp [ScrapingResult.success_rate, hne]

/-- Witness for C9 at concrete inputs: zero found yields rate 0, and
2 of 4 found yields rate 50. -/
theorem success_rate_total_witness :
    (ScrapingResult.mk 0 5).success_rate = 0
    ∧ (ScrapingResult.mk 4 2).success_rate = 50 := by
  refine ⟨(success_rate_total ⟨0, 5⟩).1 rfl, ?_⟩
  have h := (success_rate_total ⟨4, 2⟩).2 (by decide)
  rw [h]
  norm_num

/-- C10: `calculate_overall_score` always lands in [0, 100] for every metrics
instance and every weights mapping, and with an empty mapping every weight
defaults to 0.25. -/
theorem calculate_overall_score_bounded
    (m : ContentQualityMetrics) (weights : List (String × ℚ)) :
    0 ≤ m.calculate_overall_score weights
    ∧ m.calculate_overall_score weights ≤ 100
    ∧ m.calculate_overall_score [] =
        min 100 (max 0 ((m.completeness_score + m.accuracy_score
          + m.consistency_score + m.relevance_score) * ((1 : ℚ) / 4))) := by
  refine ⟨?_, ?_, ?_⟩
  · exact le_min (by norm_num) (le_max_left 0 _)
  · exact min_le_left 100 _
  · simp only [ContentQualityMetrics.calculate_overall_score, weightsGet,
      List.find?_nil]
    ring_nf

/-- C8: `ScrapingStrategy` construction rejects out-of-bound configuration
immediately (a page count below one, a delay below the permitted minimum
0.1) and succeeds on every configuration meeting the bounds. -/
theorem scraping_strategy_validation (st : String) (sel : List String)
    (mp : Int) (rd : ℚ) :
    ((mp < 1 ∨ rd < (1 : ℚ) / 10) →
      ∃ msg, ScrapingStrategy.construct st sel mp rd = Except.error msg)
    ∧ (1 ≤ mp → (1 : ℚ) / 10 ≤ rd →
      ScrapingStrategy.construct st sel mp rd = Except.ok ⟨st, sel, mp, rd⟩) := by
  constructor
  · rintro (h | h)
    · refine ⟨"max_pages must be greater than or equal to 1", ?_⟩
      rw [ScrapingStrategy.construct, if_pos h]
    · by_cases hmp : mp < 1
      · refine ⟨"max_pages must be greater than or equal to 1", ?_⟩
        rw [ScrapingStrategy.construct, if_pos hmp]
      · refine ⟨"request_delay must be greater than or equal to 0.1", ?_⟩
        rw [ScrapingStrategy.construct, if_neg hmp, if_pos h]
  · intro h1 h2
    have hmp : ¬ mp < 1 := not_lt.mpr h1
    have hrd : ¬ rd < (1 : ℚ) / 10 := not_lt.mpr h2
    rw [ScrapingStrategy.construct, if_neg hmp, if_neg hrd]

/-- Witness for C8: `max_pages = 0` is rejected, a delay of 0.05 is rejected,
and `max_pages = 10` with delay 1 is accepted. -/
theorem scraping_strategy_validation_witness :
    (∃ msg, ScrapingStrategy.construct "list" [] 0 1 = Except.error msg)
    ∧ ScrapingStrategy.construct "list" [] 10 1 = Except.ok ⟨"list", [], 10, 1⟩ := by
  constructor
  · exact (scraping_strategy_validation "list" [] 0 1).1 (Or.inl (by norm_num))
  · exact (scraping_strategy_validation "list" [] 10 1).2 (by norm_num) (by norm_num)

/-- C6: on an `Error` or `RateLimited` outcome, `release` sets the host's
`current_delay` to `min(current_delay * backoff_multiplier, max_backoff)` and
increments `consecutive_failures` by one. -/
theorem release_backoff (cfg : RateLimitConfig) (base : ℚ) (s : HostRateState)
    (outcome : FetchOutcomeClass)
    (h : outcome = FetchOutcomeClass.failed ∨ outcome = FetchOutcomeClass.rateLimited) :
    (RateLimiter.release cfg base s outcome).current_delay
        = min (s.current_delay * cfg.backoff_multiplier) cfg.max_backoff
    ∧ (RateLimiter.release cfg base s outcome).consecutive_failures
        = s.consecutive_failures + 1 := by
  rcases h with h | h <;> subst h <;> exact ⟨rfl, rfl⟩

/-- Witness for C6: an HTTP-429 (`RateLimited`) outcome at delay 3 with
multiplier 2 and cap 60 yields the capped product as next delay, and the
failure count grows by one. -/
theorem release_backoff_witness :
    (RateLimiter.release ⟨1, 1, 2, 60, 1/2⟩ 1 ⟨some 0, 3, 0, 1⟩
        FetchOutcomeClass.rateLimited).current_delay = min ((3 : ℚ) * 2) 60
    ∧ (RateLimiter.release ⟨1, 1, 2, 60, 1/2⟩ 1 ⟨some 0, 3, 0, 1⟩
        FetchOutcomeClass.rateLimited).consecutive_failures = 0 + 1 :=
  release_backoff ⟨1, 1, 2, 60, 1/2⟩ 1 ⟨some 0, 3, 0, 1⟩
    FetchOutcomeClass.rateLimited (Or.inr rfl)

/-- C7: `classify` is deterministic and pure — its result depends only on the
field name, the sample value and the configured classification rule list,
never on the checker's other state (audit log, counters, other
configuration). -/
theorem classify_deterministic (c₁ c₂ : PrivacyComplianceChecker)
    (field_name value : String)
    (h : c₁.config.classification_rules = c₂.config.classification_rules) :
    classify c₁ field_name value = classify c₂ field_name value := by
  simp only [classify, h]

/-- Witness for C7: two checkers sharing the rule list but differing in audit
log, counters and remaining configuration classify identically. -/
theorem classify_deterministic_witness :
    classify ⟨⟨[⟨fun n _ => n == "email", DataCategory.Contact⟩], [], [],
        AnonymizationStrategy.redact, false⟩, [], 0⟩ "email" "jane@example.com"
      = classify ⟨⟨[⟨fun n _ => n == "email", DataCategory.Contact⟩], [], [],
        AnonymizationStrategy.hash, true⟩, ["audited"], 42⟩ "email" "jane@example.com" :=
  classify_deterministic
    ⟨⟨[⟨fun n _ => n == "email", DataCategory.Contact⟩], [], [],
        AnonymizationStrategy.redact, false⟩, [], 0⟩
    ⟨⟨[⟨fun n _ => n == "email", DataCategory.Contact⟩], [], [],
        AnonymizationStrategy.hash, true⟩, ["audited"], 42⟩
    "email" "jane@example.com" rfl

/-- A `filterMap` step that is stable on its own output is idempotent. -/
theorem filterMap_stable_idem {α : Type} (f : α → Option α)
    (hf : ∀ x y, f x = some y → f y = some y) (l : List α) :
    (l.filterMap f).filterMap f = l.filterMap f := by
  induction l with
  | nil => rfl
  | cons a l ih =>
    rcases h : f a with _ | b
    · simp [List.filterMap_cons, h, ih]
    · simp [List.filterMap_cons, h, hf a b h, ih]

/-- Unfolding `retentionStep` when the item's category has no policy. -/
theorem retentionStep_eq_none (strategy : AnonymizationStrategy)
    (policies : List RetentionPolicy) (now : ℚ) (item : CollectedItem)
    (hp : findRetentionPolicy policies item.category = none) :
    retentionStep strategy policies now item = some item := by
  rw [retentionStep, hp]

/-- Unfolding `retentionStep` when the item's category has a policy. -/
theorem retentionStep_eq_some (strategy : AnonymizationStrategy)
    (policies : List RetentionPolicy) (now : ℚ) (item : CollectedItem)
    (p : RetentionPolicy)
    (hp : findRetentionPolicy policies item.category = some p) :
    retentionStep strategy policies now item =
      (if p.max_age < now - item.collected_at then
        match p.expiry_action with
        | ExpiryAction.Purge => none
        | ExpiryAction.Anonymize =>
          if item.anonymized then some item
          else some { item with value := anonymizeValue strategy item.value,
                                anonymized := true }
      else some item) := by
  rw [retentionStep, hp]

/-- The retention decision is stable: an item it keeps (possibly anonymized)
is kept unchanged by a second pass at the same time. -/
theorem retentionStep_stable (strategy : AnonymizationStrategy)
    (policies : List RetentionPolicy) (now : ℚ) (x y : CollectedItem)
    (h : retentionStep strategy policies now x = some y) :
    retentionStep strategy policies now y = some y := by
  rcases hp : findRetentionPolicy policies x.category with _ | p
  · rw [retentionStep_eq_none strategy policies now x hp] at h
    obtain rfl : x = y := by injection h
    exact retentionStep_eq_none strategy policies now x hp
  · rw [retentionStep_eq_some strategy policies now x p hp] at h
    by_cases hexp : p.max_age < now - x.collected_at
    · rw [if_pos hexp] at h
      rcases ha : p.expiry_action with _ | _
      · rw [ha] at h
        cases h
      · rw [ha] at h
        by_cases han : x.anonymized
        · rw [if_pos han] at h
          obtain rfl : x = y := by injection h
          rw [retentionStep_eq_some strategy policies now x p hp,
              if_pos hexp, ha, if_pos han]
        · rw [if_neg han] at h
          obtain rfl :
              ({ x with value := anonymizeValue strategy x.value,
                        anonymized := true } : CollectedItem) = y := by injection h
          simp [retentionStep, hp, hexp, ha]
    · rw [if_neg hexp] at h
      obtain rfl : x = y := by injection h
      rw [retentionStep_eq_some strategy policies now x p hp, if_neg hexp]

/-- Every element of a list of naturals is bounded by its `foldr max 0`. -/
theorem le_foldr_max (l : List Nat) : ∀ x ∈ l, x ≤ l.foldr max 0 := by
  induction l with
  | nil => intro x hx; cases hx
  | cons a l ih =>
    intro x hx
    rcases List.mem_cons.mp hx with h | h
    · subst h; exact le_max_left _ _
    · exact le_trans (ih x h) (le_max_right _ _)

/-- A matching rule's pattern length never exceeds `maxMatchLen`. -/
theorem matching_le_maxMatchLen (path : String) (rules : List RobotsRule)
    (r : RobotsRule) (hr : r ∈ matchingRules path rules) :
    r.path_pattern.length ≤ maxMatchLen path rules :=
  le_foldr_max _ _ (List.mem_map_of_mem _ hr)

/-- No Disallow rule matches at a pattern length above `maxMatchLen`. -/
theorem disallowAt_gt (path : String) (rules : List RobotsRule) (n : Nat)
    (hn : maxMatchLen path rules < n) : disallowAt path rules n = false := by
  rw [disallowAt, List.any_eq_false]
  intro r hr
  simp only [decide_eq_true_eq, not_and]
  intro hlen
  have := matching_le_maxMatchLen path rules r hr
  omega

/-- Unfolding `matchingRules` over a cons. -/
theorem matchingRules_cons (path : String) (r : RobotsRule) (rs : List RobotsRule) :
    matchingRules path (r :: rs) =
      if ruleMatches path r then r :: matchingRules path rs
      else matchingRules path rs := by
  simp [matchingRules, List.filter_cons]

/-- `maxMatchLen` over a cons whose head matches. -/
theorem maxMatchLen_cons_pos (path : String) (r : RobotsRule) (rs : List RobotsRule)
    (h : ruleMatches path r = true) :
    maxMatchLen path (r :: rs) = max r.path_pattern.length (maxMatchLen path rs) := by
  simp [maxMatchLen, matchingRules_cons, h]

/-- `maxMatchLen` over a cons whose head does not match. -/
theorem maxMatchLen_cons_neg (path : String) (r : RobotsRule) (rs : List RobotsRule)
    (h : ruleMatches path r = false) :
    maxMatchLen path (r :: rs) = maxMatchLen path rs := by
  simp [maxMatchLen, matchingRules_cons, h]

/-- `disallowAt` over a cons whose head matches. -/
theorem disallowAt_cons_pos (path : String) (r : RobotsRule) (rs : List RobotsRule)
    (n : Nat) (h : ruleMatches path r = true) :
    disallowAt path (r :: rs) n =
      (decide (r.path_pattern.length = n ∧ r.directive = Directive.disallow)
        || disallowAt path rs n) := by
  simp [disallowAt, matchingRules_cons, h]

/-- `disallowAt` over a cons whose head does not match. -/
theorem disallowAt_cons_neg (path : String) (r : RobotsRule) (rs : List RobotsRule)
    (n : Nat) (h : ruleMatches path r = false) :
    disallowAt path (r :: rs) n = disallowAt path rs n := by
  simp [disallowAt, matchingRules_cons, h]

/-- `selectRule` computes the longest-matching-pattern decision: on a
non-empty set of matching rules it returns the maximal matching length
together with Disallow exactly when some Disallow rule matches at that
length. -/
theorem selectRule_eq (path : String) (rules : List RobotsRule) :
    (matchingRules path rules = [] → selectRule path rules = none)
    ∧ (matchingRules path rules ≠ [] →
        selectRule path rules = some (maxMatchLen path rules,
          if disallowAt path rules (maxMatchLen path rules) = true
          then Directive.disallow else Directive.allow)) := by
  induction rules with
  | nil => exact ⟨fun _ => rfl, fun h => absurd rfl h⟩
  | cons r rs ih =>
    rcases hm : ruleMatches path r with _ | _
    · have hmr : matchingRules path (r :: rs) = matchingRules path rs := by
        simp [matchingRules_cons, hm]
      have hsel : selectRule path (r :: rs) = selectRule path rs := by
        simp [selectRule, hm]
      constructor
      · intro h
        rw [hsel]
        exact ih.1 (by rw [hmr] at h; exact h)
      · intro h
        rw [hsel, maxMatchLen_cons_neg path r rs hm,
            disallowAt_cons_neg path r rs _ hm]
        exact ih.2 (by rw [hmr] at h; exact h)
    · have hmr : matchingRules path (r :: rs) = r :: matchingRules path rs := by
        simp [matchingRules_cons, hm]
      constructor
      · intro h
        rw [hmr] at h
        cases h
      intro _
      by_cases hrs : matchingRules path rs = []
      · have h0 : maxMatchLen path rs = 0 := by simp [maxMatchLen, hrs]
        have hda : disallowAt path rs r.path_pattern.length = false := by
          simp [disallowAt, hrs]
        have hsel : selectRule path (r :: rs)
            = some (r.path_pattern.length, r.directive) := by
          simp [selectRule, hm, ih.1 hrs]
        rw [hsel, maxMatchLen_cons_pos path r rs hm, h0, Nat.max_zero,
            disallowAt_cons_pos path r rs _ hm, hda]
        rcases hd : r.directive <;> simp [hd]
      · have ih2 := ih.2 hrs
        rcases Nat.lt_trichotomy (maxMatchLen path rs) r.path_pattern.length
          with hlt | heq | hgt
        · have hsel : selectRule path (r :: rs)
              = some (r.path_pattern.length, r.directive) := by
            simp [selectRule, hm, ih2, hlt]
          have hda : disallowAt path rs r.path_pattern.length = false :=
            disallowAt_gt path rs _ hlt
          rw [hsel, maxMatchLen_cons_pos path r rs hm,
              Nat.max_eq_left (le_of_lt hlt),
              disallowAt_cons_pos path r rs _ hm, hda]
          rcases hd : r.directive <;> simp [hd]
        · have hsel : selectRule path (r :: rs)
              = some (maxMatchLen path rs,
                  if r.directive = Directive.disallow then Directive.disallow
                  else if disallowAt path rs (maxMatchLen path rs) = true
                    then Directive.disallow else Directive.allow) := by
            simp [selectRule, hm, ih2, heq.symm, lt_irrefl]
          rw [hsel, maxMatchLen_cons_pos path r rs hm,
              Nat.max_eq_right (le_of_eq heq.symm),
              disallowAt_cons_pos path r rs _ hm]
          rcases hd : r.directive <;>
            rcases hd2 : disallowAt path rs (maxMatchLen path rs) <;>
              simp [hd, hd2, heq.symm]
        · have hsel : selectRule path (r :: rs)
              = some (maxMatchLen path rs,
                  if disallowAt path rs (maxMatchLen path rs) = true
                  then Directive.disallow else Directive.allow) := by
            have h1 : ¬ maxMatchLen path rs < r.path_pattern.length :=
              not_lt.mpr (le_of_lt hgt)
            have h2 : r.path_pattern.length ≠ maxMatchLen path rs :=
              Nat.ne_of_lt hgt
            simp [selectRule, hm, ih2, h1, h2]
          rw [hsel, maxMatchLen_cons_pos path r rs hm,
              Nat.max_eq_right (le_of_lt hgt),
              disallowAt_cons_pos path r rs _ hm]
          have h2 : (r.path_pattern.length = maxMatchLen path rs) = False :=
            eq_false (Nat.ne_of_lt hgt)
          simp [h2]

/-- C4: with some rule of the selected group matching the requested path,
`is_allowed` is decided at the longest matching pattern length: the result is
disallowed exactly when a Disallow rule matches with that maximal length — in
particular an Allow/Disallow tie at the maximal length yields Disallow. -/
theorem is_allowed_longest_match (policy : RobotsPolicy) (ua path : String)
    (hne : matchingRules path (selectedRules policy ua) ≠ []) :
    (is_allowed policy path ua = false ↔
      disallowAt path (selectedRules policy ua)
        (maxMatchLen path (selectedRules policy ua)) = true) := by
  have h := (selectRule_eq path (selectedRules policy ua)).2 hne
  rw [is_allowed, h]
  by_cases hd : disallowAt path (selectedRules policy ua)
      (maxMatchLen path (selectedRules policy ua)) = true
  · simp [hd]
  · simp [hd]

/-- Witness for C4: an Allow `/a` and a Disallow `/a` rule tie at the maximal
matching length for path `/ab`, and the result is disallowed. -/
theorem is_allowed_longest_match_witness :
    (is_allowed ⟨[⟨"*", [⟨"*", "/a", Directive.allow⟩,
        ⟨"*", "/a", Directive.disallow⟩], none⟩]⟩ "/ab" "bot" = false ↔
      disallowAt "/ab"
        (selectedRules ⟨[⟨"*", [⟨"*", "/a", Directive.allow⟩,
          ⟨"*", "/a", Directive.disallow⟩], none⟩]⟩ "bot")
        (maxMatchLen "/ab"
          (selectedRules ⟨[⟨"*", [⟨"*", "/a", Directive.allow⟩,
            ⟨"*", "/a", Directive.disallow⟩], none⟩]⟩ "bot")) = true) :=
  is_allowed_longest_match
    ⟨[⟨"*", [⟨"*", "/a", Directive.allow⟩, ⟨"*", "/a", Directive.disallow⟩], none⟩]⟩
    "bot" "/ab" (by decide)

/-- C5: `RobotsParser.parse` is total over arbitrary input text — it always
returns a policy; malformed or unrecognised lines are skipped, leaving the
parse unchanged; and a policy whose selected rule set is empty allows every
path. -/
theorem parse_total_default_allow :
    (∀ raw_text default_ua, ∃ p : RobotsPolicy,
        RobotsParser.parse raw_text default_ua = p)
    ∧ (∀ (s : ParseState) (lines : List String),
        parseLinesAux s (lines.filter (fun x => (parseLine x).isSome))
          = parseLinesAux s lines)
    ∧ (∀ (policy : RobotsPolicy) (ua path : String),
        selectedRules policy ua = [] → is_allowed policy path ua = true) := by
  refine ⟨fun raw_text default_ua => ⟨_, rfl⟩, ?_, ?_⟩
  · intro s lines
    induction lines generalizing s with
    | nil => rfl
    | cons l ls ih =>
      rcases h : parseLine l with _ | t
      · have hf : (parseLine l).isSome = false := by simp [h]
        calc parseLinesAux s ((l :: ls).filter (fun x => (parseLine x).isSome))
            = parseLinesAux s (ls.filter (fun x => (parseLine x).isSome)) := by
              simp [List.filter_cons, hf]
          _ = parseLinesAux s ls := ih s
          _ = parseLinesAux (stepLine s l) ls := by
              rw [show stepLine s l = s by simp [stepLine, h]]
          _ = parseLinesAux s (l :: ls) := rfl
      · have hf : (parseLine l).isSome = true := by simp [h]
        calc parseLinesAux s ((l :: ls).filter (fun x => (parseLine x).isSome))
            = parseLinesAux (stepLine s l) (ls.filter (fun x => (parseLine x).isSome)) := by
              simp [List.filter_cons, hf, parseLinesAux]
          _ = parseLinesAux (stepLine s l) ls := ih _
          _ = parseLinesAux s (l :: ls) := rfl
  · intro policy ua path h
    simp [is_allowed, h, selectRule]

/-- Witness for C5: the empty policy has no selected rules and allows an
arbitrary path. -/
theorem parse_total_default_allow_witness :
    is_allowed ⟨[]⟩ "/anything" "bot" = true :=
  parse_total_default_allow.2.2 ⟨[]⟩ "bot" "/anything" rfl

/-- C3: `enforce_retention` is idempotent at a fixed time — re-applying it to
its own result with the same policies and the same time changes nothing. -/
theorem enforce_retention_idempotent (strategy : AnonymizationStrategy)
    (policies : List RetentionPolicy) (now : ℚ) (items : List CollectedItem) :
    enforce_retention strategy policies now
        (enforce_retention strategy policies now items)
      = enforce_retention strategy policies now items :=
  filterMap_stable_idem _
    (fun x y h => retentionStep_stable strategy policies now x y h) items

/-- `release` never drops the current delay below the effective base delay. -/
theorem release_delay_lower (cfg : RateLimitConfig) (base : ℚ) (s : HostRateState)
    (o : FetchOutcomeClass)
    (hm : 1 ≤ cfg.backoff_multiplier) (hb : base ≤ cfg.max_backoff)
    (hd0 : 0 ≤ cfg.decay_factor) (h0 : 0 ≤ base)
    (hs : base ≤ s.current_delay) :
    base ≤ (RateLimiter.release cfg base s o).current_delay := by
  have hcur : 0 ≤ s.current_delay := le_trans h0 hs
  have hmul : base ≤ s.current_delay * cfg.backoff_multiplier := by
    calc base ≤ s.current_delay := hs
      _ = s.current_delay * 1 := (mul_one _).symm
      _ ≤ s.current_delay * cfg.backoff_multiplier :=
          mul_le_mul_of_nonneg_left hm hcur
  have hdecay : 0 ≤ (s.current_delay - base) * cfg.decay_factor :=
    mul_nonneg (by linarith) hd0
  rcases o with _ | _ | _
  · simp only [RateLimiter.release]
    linarith
  · simp only [RateLimiter.release]
    exact le_min hmul hb
  · simp only [RateLimiter.release]
    exact le_min hmul hb

/-- `release` leaves the last granted timestamp unchanged. -/
theorem release_last_unchanged (cfg : RateLimitConfig) (base : ℚ)
    (s : HostRateState) (o : FetchOutcomeClass) :
    (RateLimiter.release cfg base s o).last_request_at = s.last_request_at := by
  rcases o with _ | _ | _ <;> rfl

/-- Along every accepted limiter trace from a state whose current delay is at
least the base delay, the last granted timestamp followed by the trace's
granted timestamps forms a chain separated by at least the base delay. -/
theorem runTrace_chain (cfg : RateLimitConfig) (base : ℚ)
    (hm : 1 ≤ cfg.backoff_multiplier) (hb : base ≤ cfg.max_backoff)
    (hd0 : 0 ≤ cfg.decay_factor) (h0 : 0 ≤ base) :
    ∀ (es : List LimiterEvent) (s s' : HostRateState),
      base ≤ s.current_delay → runTrace cfg base s es = some s' →
      List.Chain' (fun a b => a + base ≤ b)
        (lastList s.last_request_at ++ grantTimes es) := by
  intro es
  induction es with
  | nil =>
    intro s s' hs hrun
    rcases h : s.last_request_at with _ | l <;> simp [lastList, h, grantTimes]
  | cons e es ih =>
    intro s s' hs hrun
    rcases e with t | o
    · rw [runTrace] at hrun
      simp only [limiterStep] at hrun
      by_cases hcond : s.in_flight_count < cfg.max_concurrent_per_host
          ∧ grantOk s t = true
      · rw [if_pos hcond, Option.some_bind] at hrun
        have hchain := ih
          { s with last_request_at := some t, in_flight_count := s.in_flight_count + 1 }
          s' hs hrun
        rcases hl : s.last_request_at with _ | l
        · simpa [lastList, grantTimes] using hchain
        · have hlt : l + s.current_delay ≤ t := by
            have hok := hcond.2
            rw [grantOk, hl] at hok
            exact of_decide_eq_true hok
          have hsep : l + base ≤ t := by linarith
          simp only [lastList, grantTimes, List.cons_append, List.nil_append,
            List.chain'_cons]
          exact ⟨hsep, by simpa [lastList, grantTimes] using hchain⟩
      · rw [if_neg hcond] at hrun
        cases hrun
    · rw [runTrace] at hrun
      simp only [limiterStep, Option.some_bind] at hrun
      have hinv : base ≤ (RateLimiter.release cfg base s o).current_delay :=
        release_delay_lower cfg base s o hm hb hd0 h0 hs
      have hchain := ih (RateLimiter.release cfg base s o) s' hinv hrun
      rw [release_last_unchanged] at hchain
      simpa [grantTimes] using hchain

/-- C2: for one host and every interleaving of concurrent callers the limiter
semantics accepts, the granted request-start timestamps are monotonically
non-decreasing and consecutive grants are separated by at least the host's
effective delay `max(min_delay, crawl_delay)` — in particular by at least
`min_delay`. -/
theorem limiter_grants_spaced (cfg : RateLimitConfig) (crawl_delay : Option ℚ)
    (es : List LimiterEvent) (s' : HostRateState)
    (hm : 1 ≤ cfg.backoff_multiplier)
    (hb : effectiveBaseDelay cfg crawl_delay ≤ cfg.max_backoff)
    (hd0 : 0 ≤ cfg.decay_factor) (h0 : 0 ≤ cfg.min_delay)
    (hrun : runTrace cfg (effectiveBaseDelay cfg crawl_delay)
        (initialHostState (effectiveBaseDelay cfg crawl_delay)) es = some s') :
    List.Chain' (fun a b => a + effectiveBaseDelay cfg crawl_delay ≤ b)
      (grantTimes es)
    ∧ List.Chain' (fun a b => a + cfg.min_delay ≤ b) (grantTimes es)
    ∧ List.Chain' (fun a b => a ≤ b) (grantTimes es) := by
  have hminbase : cfg.min_delay ≤ effectiveBaseDelay cfg crawl_delay := by
    rcases crawl_delay with _ | d
    · exact le_refl _
    · exact le_max_left _ _
  have h0b : 0 ≤ effectiveBaseDelay cfg crawl_delay := le_trans h0 hminbase
  have hchain := runTrace_chain cfg _ hm hb hd0 h0b es _ s' (le_refl _) hrun
  have hchain' : List.Chain'
      (fun a b => a + effectiveBaseDelay cfg crawl_delay ≤ b) (grantTimes es) := by
    simpa [initialHostState, lastList] using hchain
  refine ⟨hchain', List.Chain'.imp ?_ hchain', List.Chain'.imp ?_ hchain'⟩
  · intro a b hab
    linarith
  · intro a b hab
    linarith

/-- Witness for C2: with `min_delay = 2`, the interleaving grant at 0,
successful release, grant at 2 is accepted, and the grants 0 and 2 satisfy
all three chain properties. -/
theorem limiter_grants_spaced_witness :
    List.Chain' (fun a b => a + effectiveBaseDelay ⟨2, 1, 2, 60, 1/2⟩ none ≤ b)
      (grantTimes [LimiterEvent.grant 0, LimiterEvent.rel FetchOutcomeClass.success,
        LimiterEvent.grant 2])
    ∧ List.Chain' (fun a b => a + (⟨2, 1, 2, 60, 1/2⟩ : RateLimitConfig).min_delay ≤ b)
      (grantTimes [LimiterEvent.grant 0, LimiterEvent.rel FetchOutcomeClass.success,
        LimiterEvent.grant 2])
    ∧ List.Chain' (fun a b => a ≤ b)
      (grantTimes [LimiterEvent.grant 0, LimiterEvent.rel FetchOutcomeClass.success,
        LimiterEvent.grant 2]) :=
  limiter_grants_spaced ⟨2, 1, 2, 60, 1/2⟩ none
    [LimiterEvent.grant 0, LimiterEvent.rel FetchOutcomeClass.success,
      LimiterEvent.grant 2]
    ⟨some 2, 2, 0, 1⟩ (by norm_num) (by norm_num [effectiveBaseDelay])
    (by norm_num) (by norm_num)
    (by norm_num [runTrace, limiterStep, grantOk, RateLimiter.release,
      initialHostState, effectiveBaseDelay])

/-- C1: with `respect_robots` enabled, a URL whose path the robots policy
disallows is answered `PolicyDenied` immediately: the limiter registry is
returned untouched and the injected network fetch receives no call. -/
theorem fetch_denied_no_side_effects (cfg : CrawlerConfig) (policy : RobotsPolicy)
    (registry : List (String × HostRateState)) (net : Url → Option NetResponse)
    (url : Url) (now max_wait : ℚ)
    (hr : cfg.respect_robots = true)
    (hd : is_allowed policy url.path cfg.user_agent = false) :
    RespectfulCrawler.fetch cfg policy registry net url now max_wait =
      { status := FetchStatus.policyDenied, limiter := registry,
        network_calls := [], robots_bypass_audited := false } := by
  rw [RespectfulCrawler.fetch, if_pos ⟨hr, hd⟩]

/-- Witness for C1: a concrete `Disallow: /` policy denies a fetch of `/x`
with the registry returned unchanged and no network call. -/
theorem fetch_denied_no_side_effects_witness :
    RespectfulCrawler.fetch ⟨true, "bot", ⟨1, 1, 2, 60, 1/2⟩⟩
        ⟨[⟨"*", [⟨"*", "/", Directive.disallow⟩], none⟩]⟩
        [("example.com", ⟨some 5, 1, 0, 0⟩)] (fun _ => some ⟨200⟩)
        ⟨"example.com", "/x"⟩ 10 10 =
      { status := FetchStatus.policyDenied,
        limiter := [("example.com", ⟨some 5, 1, 0, 0⟩)],
        network_calls := [], robots_bypass_audited := false } :=
  fetch_denied_no_side_effects ⟨true, "bot", ⟨1, 1, 2, 60, 1/2⟩⟩
    ⟨[⟨"*", [⟨"*", "/", Directive.disallow⟩], none⟩]⟩
    [("example.com", ⟨some 5, 1, 0, 0⟩)] (fun _ => some ⟨200⟩)
    ⟨"example.com", "/x"⟩ 10 10 rfl (by decide)

end AtomicScraper
